import Mathlib

/-!
Shallow embedding of the offline document sync layer of the `did` repository
(desktop variant: `alem-desktop/src-tauri`). The SQLite tables `documents`,
`offline_operations` and the singleton `local_identity` row are modelled as
in-memory lists and fields of a `Store`; each SQL statement of the source is
translated to the corresponding pure list transformation. JSON columns
(`payload`, `metadata`) are stored in parsed form as a small `Json` type, and
SQLite timestamps are modelled as natural numbers supplied by a `now`
parameter (the local clock). Network calls and local-disk reads performed by
the sync engine are abstracted as an `Env` record of fallible functions; a
per-change database-failure injection point models the fallibility of the
libsql statements inside `apply_server_change`, which is the only place the
control flow of the engine depends on a local storage error.
-/

namespace Did

/-- Minimal JSON value type for operation payloads, change envelopes and
metadata columns, mirroring the subset of `serde_json::Value` the code uses. -/
inductive Json where
  | null : Json
  | bool : Bool → Json
  | num : Int → Json
  | str : String → Json
  | arr : List Json → Json
  | obj : List (String × Json) → Json

/-- Field access `value[key]`: on an object returns the first binding for the
key (or null), on anything else returns null, as `serde_json` indexing does. -/
def Json.get (j : Json) (k : String) : Json :=
  match j with
  | .obj fields =>
    match fields.find? (fun p => p.1 = k) with
    | some p => p.2
    | none => Json.null
  | _ => Json.null

/-- `as_str()`: the string content when the value is a string. -/
def Json.asStr : Json → Option String
  | .str s => some s
  | _ => none

/-- `as_array()`: the element list when the value is an array. -/
def Json.asArr : Json → Option (List Json)
  | .arr xs => some xs
  | _ => none

/-- A row of the `documents` table (schema in `db/schema.rs`). `metadata` and
`tags` are serialized JSON columns, stored here in parsed form. -/
structure Document where
  id : String
  user_id : String
  tenant_id : String
  filename : String
  content_type : Option String
  file_size : Option Int
  content_hash : Option String
  local_path : Option String
  object_key : Option String
  text_content : Option String
  metadata : Json
  tags : List String
  status : String
  local_version : Int
  server_version : Int
  is_synced : Bool
  needs_upload : Bool
  needs_download : Bool
  sync_error : Option String
  last_synced_at : Option Nat
  created_at : Nat
  updated_at : Nat

/-- A row of the `offline_operations` table. -/
structure OfflineOp where
  id : String
  user_id : String
  op_type : String
  payload : Json
  status : String
  retry_count : Nat
  error_msg : Option String
  created_at : Nat
  updated_at : Nat

/-- The local database: `documents`, `offline_operations`, and the fields of
the singleton `local_identity` row the sync layer reads and writes. -/
structure Store where
  documents : List Document
  ops : List OfflineOp
  identity_user_id : Option String
  identity_tenant_id : String
  last_sync_at : Option Nat

/-- `SELECT ... FROM documents WHERE id = ?` returning at most one row. -/
def Store.findDoc (s : Store) (id : String) : Option Document :=
  s.documents.find? (fun d => d.id = id)

/-- Primary-key uniqueness of the two tables, guaranteed by the schema. -/
def Store.WF (s : Store) : Prop :=
  s.documents.Pairwise (fun a b => a.id ≠ b.id) ∧
  s.ops.Pairwise (fun a b => a.id ≠ b.id)

instance (s : Store) : Decidable s.WF := by
  unfold Store.WF; infer_instance

-- ── GUI command surface (`commands/documents.rs`) ───────────────────────────

/-- Input of the `create_document` command. -/
structure CreateDocumentInput where
  filename : String
  content_type : String
  local_path : String
  file_size : Int
  content_hash : String
  text_content : Option String
  metadata : Option Json
  tags : Option (List String)

/-- `get_document`: fetch one document by id or fail. -/
def get_document (id : String) (s : Store) : Except String Document :=
  match s.findDoc id with
  | some d => .ok d
  | none => .error "Document not found"

/-- The `documents` row inserted by `create_document`: `status = local`,
`needs_upload = 1`, remaining columns from the input or the schema
defaults. -/
def createdDoc (input : CreateDocumentInput) (docId user_id tenant_id : String)
    (now : Nat) : Document :=
  { id := docId, user_id := user_id, tenant_id := tenant_id
    filename := input.filename
    content_type := some input.content_type
    file_size := some input.file_size
    content_hash := some input.content_hash
    local_path := some input.local_path
    object_key := none
    text_content := some (input.text_content.getD "")
    metadata := input.metadata.getD (Json.obj [])
    tags := input.tags.getD []
    status := "local", local_version := 1, server_version := 0
    is_synced := false, needs_upload := true, needs_download := false
    sync_error := none, last_synced_at := none
    created_at := now, updated_at := now }

/-- The queue row inserted by `create_document` or `delete_document`:
a fresh pending operation whose payload carries the target document id. -/
def newOp (opId user_id op_type docId : String) (now : Nat) : OfflineOp :=
  { id := opId, user_id := user_id, op_type := op_type
    payload := Json.obj [("doc_id", Json.str docId)]
    status := "pending", retry_count := 0, error_msg := none
    created_at := now, updated_at := now }

/-- The two INSERTs of `create_document` applied to the store. -/
def createStep (input : CreateDocumentInput) (docId opId : String) (now : Nat)
    (s : Store) : Store :=
  { s with
    documents := s.documents ++ [createdDoc input docId
      (s.identity_user_id.getD "anonymous") s.identity_tenant_id now]
    ops := s.ops ++ [newOp opId (s.identity_user_id.getD "anonymous")
      "upload_document" docId now] }

/-- `create_document`: insert a new `documents` row with `status = local` and
`needs_upload = 1`, then insert one pending `upload_document` operation whose
payload carries the new document id, then return the row via `get_document`.
The generated UUIDs and the clock are passed in as `docId`, `opId`, `now`;
each INSERT fails on a primary-key collision. -/
def create_document (input : CreateDocumentInput) (docId opId : String)
    (now : Nat) (s : Store) : Except String (Store × Document) :=
  if s.documents.any (fun d => d.id = docId) then
    .error "Insert failed"
  else if s.ops.any (fun o => o.id = opId) then
    .error "Queue op failed"
  else
    match get_document docId (createStep input docId opId now s) with
    | .ok d => .ok (createStep input docId opId now s, d)
    | .error e => .error e

/-- The UPDATE of `update_document` applied to the store: set the filename,
bump `local_version`, set `needs_upload = 1`, `is_synced = 0`,
`status = local` on every row matching the id (no status guard). -/
def updateStep (id name : String) (now : Nat) (s : Store) : Store :=
  { s with documents := s.documents.map (fun d =>
      if d.id = id then
        { d with filename := name, local_version := d.local_version + 1
                 needs_upload := true, is_synced := false
                 status := "local", updated_at := now }
      else d) }

/-- `update_document`: when a filename is supplied run the UPDATE, then
return the row via `get_document`. -/
def update_document (id : String) (filename : Option String) (now : Nat)
    (s : Store) : Except String (Store × Document) :=
  match filename with
  | some name =>
    (match get_document id (updateStep id name now s) with
     | .ok d => .ok (updateStep id name now s, d)
     | .error e => .error e)
  | none =>
    (match get_document id s with
     | .ok d => .ok (s, d)
     | .error e => .error e)

/-- The soft-delete UPDATE and the queue INSERT of `delete_document` applied
to the store. -/
def deleteStep (id opId user_id : String) (now : Nat) (s : Store) : Store :=
  { s with
    documents := s.documents.map (fun d =>
      if d.id = id then { d with status := "deleted", updated_at := now }
      else d)
    ops := s.ops ++ [newOp opId user_id "delete_document" id now] }

/-- `delete_document`: look up the document row (its `user_id`), soft-delete
it with `UPDATE documents SET status = deleted, updated_at = now WHERE id = ?`,
then insert one pending `delete_document` operation for it. -/
def delete_document (id opId : String) (now : Nat) (s : Store) :
    Except String Store :=
  match s.findDoc id with
  | none => .error ("Document " ++ id ++ " not found")
  | some found =>
    if s.ops.any (fun o => o.id = opId) then
      .error "Queue delete failed"
    else
      .ok (deleteStep id opId found.user_id now s)

-- ── Sync engine (`sync/engine.rs`) ──────────────────────────────────────────

/-- The effectful environment of one sync cycle: the remote service endpoints,
the local filesystem read, and a database-failure injection point for the
statements executed while applying one pulled change (each pulled change
performs exactly one mutating statement, so one injection point per change
captures every local-storage failure mode of `apply_server_change`). -/
structure Env where
  uploadUrlResp : String → String → Except String Json
  readFile : String → Except String (List Nat)
  putResp : String → List Nat → Except String Unit
  applyResp : Json → Except String Unit
  changesResp : Nat → Except String Json
  applyDbError : Json → Option String

/-- `context(msg)` on an optional string: the value or the given error. -/
def requireStr (v : Option String) (msg : String) : Except String String :=
  match v with
  | some s => .ok s
  | none => .error msg

/-- The apply envelope posted after a completed upload (step 3). -/
def uploadEnvelope (doc_id filename ct object_key : String) (metadata : Json) :
    Json :=
  Json.obj [("changes", Json.arr [Json.obj
    [("type", Json.str "create_document"),
     ("id", Json.str doc_id),
     ("data", Json.obj
       [("id", Json.str doc_id),
        ("filename", Json.str filename),
        ("content_type", Json.str ct),
        ("object_key", Json.str object_key),
        ("metadata", metadata)])]])]

/-- The apply envelope posted for a queued `delete_document` operation. -/
def deleteEnvelope (doc_id : String) : Json :=
  Json.obj [("changes", Json.arr [Json.obj
    [("type", Json.str "delete_document"),
     ("id", Json.str doc_id),
     ("data", Json.obj [("id", Json.str doc_id)])]])]

/-- The row function of the final UPDATE of `upload_document`: mark the
matching row synced, record the returned object key and stamp
`last_synced_at`. -/
def uploadedMerge (object_key : String) (now : Nat) (doc_id : String)
    (d : Document) : Document :=
  if d.id = doc_id then
    { d with status := "synced", object_key := some object_key
             is_synced := true, needs_upload := false
             last_synced_at := some now, updated_at := now }
  else d

/-- `upload_document`: read the target document, require a `local_path`,
request an upload target, transfer the bytes, post the apply envelope, and
only then mark the document row synced. Every failure returns before the
final row update, so an error leaves the store untouched. -/
def uploadDocument (env : Env) (now : Nat) (s : Store) (payload : Json) :
    Except String Store :=
  match (payload.get "doc_id").asStr with
  | none => .error "Missing doc_id"
  | some doc_id =>
    match s.findDoc doc_id with
    | none => .error ("Document " ++ doc_id ++ " not found in local DB")
    | some doc =>
      match doc.local_path with
      | none => .error "Document has no local_path"
      | some local_path =>
      match env.uploadUrlResp doc_id doc.filename with
      | .error e => .error e
      | .ok resp =>
      match requireStr (resp.get "upload_url").asStr "No upload_url" with
      | .error e => .error e
      | .ok upload_url =>
      match requireStr (resp.get "object_key").asStr "No object_key" with
      | .error e => .error e
      | .ok object_key =>
      match env.readFile local_path with
      | .error e => .error e
      | .ok file_bytes =>
      match env.putResp upload_url file_bytes with
      | .error e => .error e
      | .ok _ =>
      match env.applyResp (uploadEnvelope doc_id doc.filename
        (doc.content_type.getD "application/octet-stream") object_key doc.metadata) with
      | .error e => .error e
      | .ok _ =>
        .ok { s with documents :=
          s.documents.map (uploadedMerge object_key now doc_id) }

/-- `delete_document_on_server`: post the delete envelope; no local change. -/
def deleteDocumentOnServer (env : Env) (s : Store) (payload : Json) :
    Except String Store :=
  match (payload.get "doc_id").asStr with
  | none => .error "Missing doc_id"
  | some doc_id =>
    match env.applyResp (deleteEnvelope doc_id) with
    | .error e => .error e
    | .ok _ => .ok s

/-- Dispatch on `op_type` inside the batch loop of `process_pending_ops`;
an unrecognized type is logged and returns success without touching the
store. -/
def execOp (env : Env) (now : Nat) (s : Store) (op_type : String)
    (payload : Json) : Except String Store :=
  match op_type with
  | "upload_document" => uploadDocument env now s payload
  | "delete_document" => deleteDocumentOnServer env s payload
  | _ => .ok s

/-- `UPDATE offline_operations SET status = done, updated_at = now WHERE id = ?`. -/
def markOpDone (s : Store) (opId : String) (now : Nat) : Store :=
  { s with ops := s.ops.map (fun o =>
      if o.id = opId then { o with status := "done", updated_at := now }
      else o) }

/-- `UPDATE offline_operations SET retry_count = retry_count + 1,
status = failed, error_msg = ?, updated_at = now WHERE id = ?`. -/
def markOpFailed (s : Store) (opId : String) (err : String) (now : Nat) :
    Store :=
  { s with ops := s.ops.map (fun o =>
      if o.id = opId then
        { o with retry_count := o.retry_count + 1, status := "failed"
                 error_msg := some err, updated_at := now }
      else o) }

/-- One iteration of the batch loop: execute the operation, then record its
outcome on the queue row (done on success, failed with incremented retry
count on error). -/
def processOne (env : Env) (now : Nat) (s : Store) (op : OfflineOp) : Store :=
  match execOp env now s op.op_type op.payload with
  | .ok s1 => markOpDone s1 op.id now
  | .error e => markOpFailed s op.id e now

/-- The ordering used by `ORDER BY created_at ASC`. -/
def opLe (a b : OfflineOp) : Prop := a.created_at ≤ b.created_at

instance : DecidableRel opLe := fun a b => Nat.decLe a.created_at b.created_at

instance : IsTotal OfflineOp opLe :=
  ⟨fun a b => Nat.le_total a.created_at b.created_at⟩

instance : IsTrans OfflineOp opLe :=
  ⟨fun _ _ _ hab hbc => Nat.le_trans hab hbc⟩

/-- The snapshot query of `process_pending_ops`:
`SELECT ... WHERE status = pending AND retry_count < 5
ORDER BY created_at ASC LIMIT 20`. -/
def selectPendingOps (s : Store) : List OfflineOp :=
  (List.insertionSort opLe
    (s.ops.filter (fun o => decide (o.status = "pending" ∧ o.retry_count < 5)))).take 20

/-- `process_pending_ops`: snapshot the batch once, then process each
operation serially in order. -/
def processPendingOps (env : Env) (now : Nat) (s : Store) : Store :=
  (selectPendingOps s).foldl (processOne env now) s

-- ── Pull pipeline (`pull_server_changes` and `apply_server_change`) ─────────

/-- The epoch fallback of `COALESCE(last_sync_at, 2000-01-01T00:00:00Z)`. -/
def sinceOf (s : Store) : Nat := s.last_sync_at.getD 0

/-- The `documents` row inserted for a pulled change whose id is unknown
locally; unspecified columns take the schema defaults. -/
def pulledDoc (data : Json) (now : Nat) : Document :=
  { id := (data.get "id").asStr.getD ""
    user_id := (data.get "user_id").asStr.getD ""
    tenant_id := (data.get "tenant_id").asStr.getD "default"
    filename := (data.get "filename").asStr.getD ""
    content_type := some ((data.get "content_type").asStr.getD "")
    file_size := none, content_hash := none, local_path := none
    object_key := some ((data.get "object_key").asStr.getD "")
    text_content := none, metadata := Json.obj [], tags := []
    status := "synced", local_version := 1, server_version := 0
    is_synced := true, needs_upload := false, needs_download := true
    sync_error := none, last_synced_at := none
    created_at := now, updated_at := now }

/-- The row function of the UPDATE run for a pulled change whose id exists
locally: overwrite the object key and the synced flags of the matching row. -/
def syncedMerge (data : Json) (now : Nat) (id : String) (d : Document) :
    Document :=
  if d.id = id then
    { d with object_key := some ((data.get "object_key").asStr.getD "")
             status := "synced", is_synced := true
             needs_upload := false, last_synced_at := some now }
  else d

/-- The `document_created` and `document_updated` branch of
`apply_server_change`: count rows with the id, insert a fresh synced row when
none exists, otherwise overwrite the object key and synced
flags. -/
def applyUpsert (env : Env) (now : Nat) (s : Store) (data change : Json) :
    Except String Store :=
  match env.applyDbError change with
  | some e => .error e
  | none =>
    if s.documents.any (fun d => d.id = (data.get "id").asStr.getD "") then
      .ok { s with documents :=
        s.documents.map (syncedMerge data now ((data.get "id").asStr.getD "")) }
    else
      .ok { s with documents := s.documents ++ [pulledDoc data now] }

/-- `apply_server_change`: dispatch on the change type; `document_deleted`
runs `UPDATE documents SET status = deleted WHERE id = ?`; unknown kinds are
logged and ignored. -/
def applyServerChange (env : Env) (now : Nat) (s : Store) (change : Json) :
    Except String Store :=
  match (change.get "type").asStr.getD "" with
  | "document_updated" => applyUpsert env now s (change.get "data") change
  | "document_created" => applyUpsert env now s (change.get "data") change
  | "document_deleted" =>
    match env.applyDbError change with
    | some e => .error e
    | none =>
      .ok { s with documents := s.documents.map (fun d =>
        if d.id = ((change.get "data").get "id").asStr.getD "" then
          { d with status := "deleted" }
        else d) }
  | _ => .ok s

/-- The change loop of `pull_server_changes`: apply each change in order; the
first error aborts the loop (the `?` operator), leaving the changes already
applied in place and reporting the error. -/
def applyAll (env : Env) (now : Nat) : Store → List Json → Store × Option String
  | s, [] => (s, none)
  | s, c :: rest =>
    match applyServerChange env now s c with
    | .ok s1 => applyAll env now s1 rest
    | .error e => (s, some e)

/-- `pull_server_changes`: read the checkpoint, fetch the changes since it,
apply them in arrival order, and only when every application succeeded set
`last_sync_at` to the local clock. The second component is the error
propagated to the caller, if any. -/
def pullServerChanges (env : Env) (now : Nat) (s : Store) :
    Store × Option String :=
  match env.changesResp (sinceOf s) with
  | .error e => (s, some e)
  | .ok resp =>
    let changes := ((resp.get "changes").asArr).getD []
    match applyAll env now s changes with
    | (s1, some e) => (s1, some e)
    | (s1, none) => ({ s1 with last_sync_at := some now }, none)

-- ── Concrete fixtures used by witnesses and counterexamples ─────────────────

/-- An environment in which every remote call fails (server unreachable) and
no local database statement fails. -/
def noNet : Env :=
  { uploadUrlResp := fun _ _ => .error "network error"
    readFile := fun _ => .error "network error"
    putResp := fun _ _ => .error "network error"
    applyResp := fun _ => .error "network error"
    changesResp := fun _ => .error "network error"
    applyDbError := fun _ => none }

/-- A fully synced document row with a given id. -/
def syncedDoc (id : String) : Document :=
  { id := id, user_id := "u1", tenant_id := "default", filename := "a.txt"
    content_type := some "text/plain", file_size := some 3
    content_hash := some "h", local_path := some "/tmp/a.txt"
    object_key := some "k", text_content := some ""
    metadata := Json.obj [], tags := [], status := "synced"
    local_version := 1, server_version := 0, is_synced := true
    needs_upload := false, needs_download := false, sync_error := none
    last_synced_at := some 1, created_at := 0, updated_at := 1 }

/-- A store holding exactly the given rows and an empty checkpoint. -/
def mkStore (docs : List Document) (ops : List OfflineOp) : Store :=
  { documents := docs, ops := ops, identity_user_id := some "u1"
    identity_tenant_id := "default", last_sync_at := none }

/-- A pending queue row with a given id, type, target and creation time. -/
def pendingOp (id op_type target : String) (created : Nat) : OfflineOp :=
  { id := id, user_id := "u1", op_type := op_type
    payload := Json.obj [("doc_id", Json.str target)]
    status := "pending", retry_count := 0, error_msg := none
    created_at := created, updated_at := created }

/-- `COUNT(*) FROM documents WHERE id = ?`. -/
def countById (l : List Document) (i : String) : Nat :=
  l.countP (fun d => decide (d.id = i))

/-- A `document_deleted` pull change for the given id. -/
def deleteChange (i : String) : Json :=
  Json.obj [("type", Json.str "document_deleted"),
            ("data", Json.obj [("id", Json.str i)])]

/-- A `document_created` pull change for the given id and object key. -/
def createChange (i key : String) : Json :=
  Json.obj [("type", Json.str "document_created"),
            ("data", Json.obj [("id", Json.str i),
                               ("object_key", Json.str key)])]

/-- An environment that serves the given pulled changes and injects a local
database failure for every change whose data id is `badId`. -/
def pullEnv (changes : List Json) (badId : String) : Env :=
  { noNet with
    changesResp := fun _ => .ok (Json.obj [("changes", Json.arr changes)])
    applyDbError := fun c =>
      if ((c.get "data").get "id").asStr = some badId then some "disk error"
      else none }

/-- An environment that accepts the whole three-step upload protocol. -/
def okUploadEnv : Env :=
  { noNet with
    uploadUrlResp := fun _ _ => .ok (Json.obj
      [("upload_url", Json.str "https://bucket/put"),
       ("object_key", Json.str "objkey-1")])
    readFile := fun _ => .ok [104, 105]
    putResp := fun _ _ => .ok ()
    applyResp := fun _ => .ok () }

/-- A queue row that has exhausted its retries. -/
def c6failed : OfflineOp :=
  { pendingOp "c" "upload_document" "d" 0 with
      status := "failed", retry_count := 5 }

/-- A queue with two pending operations (enqueued out of id order) and one
exhausted failed operation. -/
def c6s : Store :=
  mkStore [] [pendingOp "a" "upload_document" "d" 3,
              pendingOp "b" "delete_document" "d" 1, c6failed]

/-- A sample `create_document` command input. -/
def cInput : CreateDocumentInput :=
  { filename := "notes.txt", content_type := "text/plain"
    local_path := "/tmp/notes", file_size := 2, content_hash := "h"
    text_content := none, metadata := none, tags := none }

/-- A freshly created local document row, as `create_document` writes it. -/
def localDoc (id filename : String) : Document :=
  { id := id, user_id := "u1", tenant_id := "default", filename := filename
    content_type := some "text/plain", file_size := some 2
    content_hash := some "h", local_path := some "/tmp/notes"
    object_key := none, text_content := some ""
    metadata := Json.obj [], tags := [], status := "local"
    local_version := 1, server_version := 0, is_synced := false
    needs_upload := true, needs_download := false, sync_error := none
    last_synced_at := none, created_at := 0, updated_at := 0 }

/-- A store holding one local document awaiting upload and its queued
operation. -/
def c8s : Store :=
  mkStore [localDoc "D" "notes.txt"] [pendingOp "op1" "upload_document" "D" 1]

-- ── Structural lemmas about the push pipeline ───────────────────────────────

theorem uploadDocument_ok_ops {env : Env} {now : Nat} {s : Store} {p : Json}
    {s1 : Store} (h : uploadDocument env now s p = .ok s1) : s1.ops = s.ops := by
  unfold uploadDocument at h
  repeat' split at h
  all_goals first
    | (injection h with h2; subst h2; rfl)
    | injection h

theorem execOp_ok_ops {env : Env} {now : Nat} {s : Store} {t : String}
    {p : Json} {s1 : Store} (h : execOp env now s t p = .ok s1) :
    s1.ops = s.ops := by
  unfold execOp at h
  split at h
  · exact uploadDocument_ok_ops h
  · unfold deleteDocumentOnServer at h
    repeat' split at h
    all_goals first
      | (injection h with h2; subst h2; rfl)
      | injection h
  · injection h with h2
    subst h2
    rfl

theorem processOne_mem_other {env : Env} {now : Nat} {s : Store}
    {op : OfflineOp} {o : OfflineOp} (ho : o ∈ s.ops) (hid : o.id ≠ op.id) :
    o ∈ (processOne env now s op).ops := by
  unfold processOne
  cases hx : execOp env now s op.op_type op.payload with
  | ok s1 =>
    have h1 : o ∈ s1.ops := by rw [execOp_ok_ops hx]; exact ho
    have h2 := List.mem_map_of_mem (fun o =>
      if o.id = op.id then { o with status := "done", updated_at := now }
      else o) h1
    simpa [markOpDone, if_neg hid] using h2
  | error e =>
    have h2 := List.mem_map_of_mem (fun o =>
      if o.id = op.id then
        { o with retry_count := o.retry_count + 1, status := "failed"
                 error_msg := some e, updated_at := now }
      else o) ho
    simpa [markOpFailed, if_neg hid] using h2

theorem foldl_processOne_untouched (env : Env) (now : Nat) :
    ∀ (L : List OfflineOp) (s : Store) (o : OfflineOp), o ∈ s.ops →
      (∀ a ∈ L, a.id ≠ o.id) → o ∈ (L.foldl (processOne env now) s).ops := by
  intro L
  induction L with
  | nil => intro s o ho _; exact ho
  | cons a L ih =>
    intro s o ho hids
    have ha : o.id ≠ a.id := fun hc => hids a (List.mem_cons_self a L) hc.symm
    exact ih _ _ (processOne_mem_other ho ha)
      (fun b hb => hids b (List.mem_cons_of_mem _ hb))

theorem processOne_unknown {env : Env} {now : Nat} {s : Store}
    {op : OfflineOp} (h1 : op.op_type ≠ "upload_document")
    (h2 : op.op_type ≠ "delete_document") :
    processOne env now s op = markOpDone s op.id now := by
  have hx : execOp env now s op.op_type op.payload = .ok s := by
    unfold execOp
    split <;> first | rfl | simp_all
  unfold processOne
  rw [hx]

theorem markOpDone_mem {s : Store} {opId : String} {now : Nat}
    {o : OfflineOp} (ho : o ∈ s.ops) (hid : o.id = opId) :
    { o with status := "done", updated_at := now } ∈ (markOpDone s opId now).ops := by
  unfold markOpDone
  refine List.mem_map.mpr ⟨o, ho, ?_⟩
  rw [if_pos hid]

theorem foldl_processOne_unknown (env : Env) (now : Nat) :
    ∀ (L : List OfflineOp) (s : Store) (o : OfflineOp), o ∈ L →
      L.Pairwise (fun a b => a.id ≠ b.id) → o ∈ s.ops →
      o.op_type ≠ "upload_document" → o.op_type ≠ "delete_document" →
      { o with status := "done", updated_at := now } ∈
        (L.foldl (processOne env now) s).ops := by
  intro L
  induction L with
  | nil => intro s o ho; cases ho
  | cons a L ih =>
    intro s o ho hpw hos h1 h2
    rcases List.mem_cons.mp ho with rfl | hmem
    · rw [List.foldl_cons, processOne_unknown h1 h2]
      exact foldl_processOne_untouched env now L _ _
        (markOpDone_mem hos rfl)
        (fun b hb => fun hc => (List.pairwise_cons.mp hpw).1 b hb hc.symm)
    · have ha : o.id ≠ a.id :=
        fun hc => (List.pairwise_cons.mp hpw).1 o hmem hc.symm
      exact ih _ _ hmem (List.pairwise_cons.mp hpw).2
        (processOne_mem_other hos ha) h1 h2

-- ── Lemmas about the batch selection query ──────────────────────────────────

theorem mem_selectPendingOps {s : Store} {o : OfflineOp}
    (h : o ∈ selectPendingOps s) :
    o ∈ s.ops ∧ o.status = "pending" ∧ o.retry_count < 5 := by
  unfold selectPendingOps at h
  have h1 := List.mem_of_mem_take h
  rw [List.mem_insertionSort] at h1
  have h2 := List.mem_filter.mp h1
  exact ⟨h2.1, of_decide_eq_true h2.2⟩

theorem selectPendingOps_length (s : Store) :
    (selectPendingOps s).length ≤ 20 := by
  unfold selectPendingOps
  rw [List.length_take]
  exact Nat.min_le_left 20 _

theorem selectPendingOps_sorted (s : Store) :
    (selectPendingOps s).Pairwise opLe := by
  unfold selectPendingOps
  exact (List.sorted_insertionSort opLe _).sublist (List.take_sublist _ _)

theorem selectPendingOps_pairwise_ids {s : Store}
    (h : s.ops.Pairwise (fun a b => a.id ≠ b.id)) :
    (selectPendingOps s).Pairwise (fun a b => a.id ≠ b.id) := by
  unfold selectPendingOps
  have hf : (s.ops.filter (fun o =>
      decide (o.status = "pending" ∧ o.retry_count < 5))).Pairwise
      (fun a b => a.id ≠ b.id) :=
    h.sublist (List.filter_sublist _)
  have hs := ((List.perm_insertionSort opLe _).pairwise_iff
    (fun h => h.symm)).mpr hf
  exact hs.sublist (List.take_sublist _ _)

theorem selectPendingOps_full {s : Store}
    (h : (s.ops.filter (fun o =>
      decide (o.status = "pending" ∧ o.retry_count < 5))).length ≤ 20)
    (o : OfflineOp) :
    o ∈ selectPendingOps s ↔
      o ∈ s.ops ∧ o.status = "pending" ∧ o.retry_count < 5 := by
  unfold selectPendingOps
  rw [List.take_of_length_le (by rwa [List.length_insertionSort]),
    List.mem_insertionSort, List.mem_filter]
  constructor
  · intro ⟨ha, hb⟩; exact ⟨ha, of_decide_eq_true hb⟩
  · intro ⟨ha, hb⟩; exact ⟨ha, decide_eq_true hb⟩

-- ── Structural lemmas about the pull pipeline ───────────────────────────────

theorem applyUpsert_ok_shape {env : Env} {now : Nat} {s : Store}
    {data chg : Json} {s1 : Store}
    (h : applyUpsert env now s data chg = .ok s1) :
    s1.ops = s.ops ∧ s1.last_sync_at = s.last_sync_at := by
  unfold applyUpsert at h
  repeat' split at h
  all_goals first
    | (injection h with h2; subst h2; exact ⟨rfl, rfl⟩)
    | injection h

theorem applyServerChange_ok_shape {env : Env} {now : Nat} {s : Store}
    {chg : Json} {s1 : Store}
    (h : applyServerChange env now s chg = .ok s1) :
    s1.ops = s.ops ∧ s1.last_sync_at = s.last_sync_at := by
  unfold applyServerChange at h
  split at h
  · exact applyUpsert_ok_shape h
  · exact applyUpsert_ok_shape h
  · repeat' split at h
    all_goals first
      | (injection h with h2; subst h2; exact ⟨rfl, rfl⟩)
      | injection h
  · injection h with h2
    subst h2
    exact ⟨rfl, rfl⟩

theorem applyAll_fst_last_sync (env : Env) (now : Nat) :
    ∀ (L : List Json) (s : Store),
      (applyAll env now s L).1.last_sync_at = s.last_sync_at := by
  intro L
  induction L with
  | nil => intro s; rfl
  | cons c L ih =>
    intro s
    cases hx : applyServerChange env now s c with
    | ok s1 =>
      simp only [applyAll, hx]
      rw [ih s1, (applyServerChange_ok_shape hx).2]
    | error e => simp only [applyAll, hx]

theorem countById_ne_zero {l : List Document} {i : String} :
    countById l i ≠ 0 ↔ (l.any fun d => decide (d.id = i)) = true := by
  unfold countById
  rw [Ne, List.countP_eq_zero, List.any_eq_true]
  constructor
  · intro h
    by_contra hc
    exact h (fun a ha hp => hc ⟨a, ha, hp⟩)
  · intro ⟨a, ha, hp⟩ hall
    exact hall a ha hp

theorem syncedMerge_id (data : Json) (now : Nat) (i : String) (d : Document) :
    (syncedMerge data now i d).id = d.id := by
  unfold syncedMerge
  split <;> rfl

theorem countById_map_syncedMerge (data : Json) (now : Nat) (i j : String)
    (l : List Document) : countById (l.map (syncedMerge data now i)) j =
      countById l j := by
  unfold countById
  rw [List.countP_map]
  exact List.countP_congr (fun d _ => by
    simp [Function.comp, syncedMerge_id])

theorem applyUpsert_eq {env : Env} {now : Nat} {s : Store} {data chg : Json}
    {i : String} (hdb : env.applyDbError chg = none)
    (hid : (data.get "id").asStr.getD "" = i) :
    applyUpsert env now s data chg =
      .ok (if (s.documents.any fun d => decide (d.id = i)) = true then
             { s with documents := s.documents.map (syncedMerge data now i) }
           else { s with documents := s.documents ++ [pulledDoc data now] }) := by
  simp only [applyUpsert, hid, hdb]
  by_cases hpres : (s.documents.any fun d => decide (d.id = i)) = true
  · rw [if_pos hpres, if_pos hpres]
  · rw [if_neg hpres, if_neg hpres]

theorem applyUpsert_count {env : Env} {now : Nat} {s : Store} {data chg : Json}
    {i : String} (hdb : env.applyDbError chg = none)
    (hid : (data.get "id").asStr.getD "" = i) :
    ∃ s1, applyUpsert env now s data chg = .ok s1 ∧
      countById s1.documents i =
        (if countById s.documents i = 0 then 1 else countById s.documents i) ∧
      (countById s.documents i ≠ 0 →
        s1.documents.length = s.documents.length) := by
  by_cases hpres : (s.documents.any fun d => decide (d.id = i)) = true
  · rw [applyUpsert_eq hdb hid, if_pos hpres]
    have hnz : countById s.documents i ≠ 0 := countById_ne_zero.mpr hpres
    refine ⟨_, rfl, ?_, fun _ => by simp⟩
    rw [countById_map_syncedMerge, if_neg hnz]
  · rw [applyUpsert_eq hdb hid, if_neg hpres]
    have hz : countById s.documents i = 0 := by
      by_contra hc
      exact hpres (countById_ne_zero.mp hc)
    refine ⟨_, rfl, ?_, fun hc => absurd hz hc⟩
    rw [if_pos hz]
    unfold countById at hz ⊢
    rw [List.countP_append, hz, List.countP_cons]
    simp [pulledDoc, hid]

theorem applyServerChange_upsert {env : Env} {now : Nat} {s : Store}
    {chg : Json} {ty : String}
    (hty : ((chg.get "type").asStr.getD "") = ty)
    (hty2 : ty = "document_created" ∨ ty = "document_updated") :
    applyServerChange env now s chg =
      applyUpsert env now s (chg.get "data") chg := by
  unfold applyServerChange
  rcases hty2 with h | h <;> rw [hty, h] <;> rfl

theorem find_append_new {l : List Document} {docId : String} {doc : Document}
    (hany : ¬ ((l.any fun d => decide (d.id = docId)) = true))
    (hdoc : doc.id = docId) :
    (l ++ [doc]).find? (fun d => decide (d.id = docId)) = some doc := by
  rw [List.find?_append]
  have h1 : l.find? (fun d => decide (d.id = docId)) = none := by
    rw [List.find?_eq_none]
    intro x hx hpx
    exact hany (List.any_eq_true.mpr ⟨x, hx, hpx⟩)
  rw [h1, Option.none_or]
  exact List.find?_cons_of_pos _ (by simp [hdoc])

-- ── Claim theorems ──────────────────────────────────────────────────────────

/-- Counterexample to claim C1: `update_document` marks a fully synced
document `needs_upload` without enqueuing any operation. On a store holding
one synced document and an empty queue, the command succeeds, the returned
document has `needs_upload = true`, and the queue is still empty, so a
document marked for upload is observable with no queued operation targeting
it. -/
theorem claim_c1_counterexample :
    (update_document "d1" (some "b.txt") 5
        (mkStore [syncedDoc "d1"] [])).toOption.map
      (fun p => (p.2.needs_upload, p.1.ops.length)) = some (true, 0) ∧
    (syncedDoc "d1").needs_upload = false := by
  exact ⟨by decide, rfl⟩

/-- Claim C1 as amended: the pairing of the `needs_upload` mark with an
enqueued operation holds for `create_document` (which inserts the document
with `needs_upload = true` and exactly one new pending `upload_document`
operation targeting it) and for `delete_document` (exactly one new pending
`delete_document` operation, with the row tombstoned); `update_document`
is excluded, since it sets `needs_upload` without enqueuing anything. -/
theorem claim_c1_amended :
    (∀ input docId opId now s s1 d,
      create_document input docId opId now s = .ok (s1, d) →
        d.needs_upload = true ∧ d.id = docId ∧ d.status = "local" ∧
        ∃ op : OfflineOp, s1.ops = s.ops ++ [op] ∧
          op.op_type = "upload_document" ∧ op.status = "pending" ∧
          (op.payload.get "doc_id").asStr = some docId) ∧
    (∀ id opId now s s1,
      delete_document id opId now s = .ok s1 →
        ∃ op : OfflineOp, s1.ops = s.ops ++ [op] ∧
          op.op_type = "delete_document" ∧ op.status = "pending" ∧
          (op.payload.get "doc_id").asStr = some id) := by
  constructor
  · intro input docId opId now s s1 d h
    unfold create_document at h
    split at h
    · injection h
    next hany =>
      split at h
      · injection h
      next hops =>
        have hfind : get_document docId (createStep input docId opId now s) =
            .ok (createdDoc input docId (s.identity_user_id.getD "anonymous")
              s.identity_tenant_id now) := by
          unfold get_document Store.findDoc createStep
          rw [find_append_new hany rfl]
        rw [hfind] at h
        injection h with h2
        injection h2 with h3 h4
        subst h3
        subst h4
        exact ⟨rfl, rfl, rfl, _, rfl, rfl, rfl, rfl⟩
  · intro id opId now s s1 h
    unfold delete_document at h
    split at h
    · injection h
    · split at h
      · injection h
      · injection h with h2
        subst h2
        exact ⟨_, rfl, rfl, rfl, rfl⟩

/-- Witness for the amended C1: a concrete create on an empty store and a
concrete delete on a one-document store, each enqueuing its paired
operation. -/
theorem claim_c1_witness :
    (∃ s1 d, create_document cInput "d9" "op9" 3 (mkStore [] []) = .ok (s1, d) ∧
      (d.needs_upload = true ∧ d.id = "d9" ∧ d.status = "local" ∧
       ∃ op : OfflineOp, s1.ops = (mkStore [] []).ops ++ [op] ∧
         op.op_type = "upload_document" ∧ op.status = "pending" ∧
         (op.payload.get "doc_id").asStr = some "d9")) ∧
    (∃ s2, delete_document "d1" "op8" 4 (mkStore [syncedDoc "d1"] []) = .ok s2 ∧
      ∃ op : OfflineOp, s2.ops = (mkStore [syncedDoc "d1"] []).ops ++ [op] ∧
        op.op_type = "delete_document" ∧ op.status = "pending" ∧
        (op.payload.get "doc_id").asStr = some "d1") := by
  refine ⟨⟨_, _, rfl, claim_c1_amended.1 cInput "d9" "op9" 3
      (mkStore [] []) _ _ rfl⟩,
    ⟨_, rfl, claim_c1_amended.2 "d1" "op8" 4 (mkStore [syncedDoc "d1"] []) _ rfl⟩⟩

/-- Counterexample to claim C2: one run of the push pipeline over a queue
holding a single pending operation of unrecognized type leaves it with
status done, not pending: the unknown-type branch returns success and the
batch loop then marks the operation done. -/
theorem claim_c2_counterexample :
    ((processPendingOps noNet 7
        (mkStore [] [pendingOp "op1" "frobnicate" "d1" 2])).ops.map
      (fun o => (o.id, o.status, o.retry_count))) = [("op1", "done", 0)] ∧
    (pendingOp "op1" "frobnicate" "d1" 2).status = "pending" := by
  exact ⟨by decide, rfl⟩

/-- Claim C2 as amended: an operation in the selected batch whose type is
neither `upload_document` nor `delete_document` is logged and treated as
successful: after one run of the push pipeline its row is marked done with
its retry count and error message unchanged (it is not marked failed and its
retry count is not incremented, but it does not stay pending). -/
theorem claim_c2_amended (env : Env) (now : Nat) (s : Store) (o : OfflineOp)
    (hwf : s.WF) (hsel : o ∈ selectPendingOps s)
    (h1 : o.op_type ≠ "upload_document")
    (h2 : o.op_type ≠ "delete_document") :
    { o with status := "done", updated_at := now } ∈
      (processPendingOps env now s).ops := by
  unfold processPendingOps
  exact foldl_processOne_unknown env now (selectPendingOps s) s o hsel
    (selectPendingOps_pairwise_ids hwf.2) (mem_selectPendingOps hsel).1 h1 h2

/-- Witness for the amended C2 at a concrete queue holding one pending
operation of unknown type. -/
theorem claim_c2_witness :
    { pendingOp "op1" "frobnicate" "d1" 2 with
        status := "done", updated_at := 7 } ∈
      (processPendingOps noNet 7
        (mkStore [] [pendingOp "op1" "frobnicate" "d1" 2])).ops :=
  claim_c2_amended noNet 7 (mkStore [] [pendingOp "op1" "frobnicate" "d1" 2])
    (pendingOp "op1" "frobnicate" "d1" 2) (by decide)
    (show _ ∈ [pendingOp "op1" "frobnicate" "d1" 2] from
      List.mem_singleton.mpr rfl)
    (by decide) (by decide)

/-- Counterexample to claim C4: applying a `document_deleted` change for an
id with no local row completes without error but leaves no queryable
tombstone row: the UPDATE matches zero rows and inserts nothing, so the store
still has no row at all for that id. -/
theorem claim_c4_counterexample :
    ∃ s1, applyServerChange noNet 7 (mkStore [] []) (deleteChange "ghost") =
        .ok s1 ∧ s1.documents = [] :=
  ⟨_, rfl, rfl⟩

/-- Claim C4 as amended: applying a `document_deleted` change always
completes without error; when no row with the target id exists the store is
unchanged (no tombstone is created), and when rows exist each is marked
deleted; the table length never changes. -/
theorem claim_c4_amended (env : Env) (now : Nat) (s : Store) (chg : Json)
    (i : String) (hty : (chg.get "type").asStr.getD "" = "document_deleted")
    (hid : ((chg.get "data").get "id").asStr.getD "" = i)
    (hdb : env.applyDbError chg = none) :
    ∃ s1, applyServerChange env now s chg = .ok s1 ∧
      ((∀ d ∈ s.documents, d.id ≠ i) → s1 = s) ∧
      (∀ d ∈ s.documents, d.id = i →
        { d with status := "deleted" } ∈ s1.documents) ∧
      s1.documents.length = s.documents.length := by
  refine ⟨{ s with documents := s.documents.map (fun d =>
      if d.id = i then { d with status := "deleted" } else d) }, ?_, ?_, ?_, ?_⟩
  · unfold applyServerChange
    rw [hty, hdb, hid]
    rfl
  · intro hnone
    have hmap : s.documents.map (fun d =>
        if d.id = i then { d with status := "deleted" } else d) =
        s.documents := by
      rw [show s.documents.map (fun d =>
          if d.id = i then { d with status := "deleted" } else d) =
          s.documents.map id from
        List.map_congr_left (fun a ha => by rw [if_neg (hnone a ha)]; rfl)]
      exact List.map_id s.documents
    rw [hmap]
  · intro d hd hdi
    exact List.mem_map.mpr ⟨d, hd, by rw [if_pos hdi]⟩
  · exact List.length_map _ _

/-- Witness for the amended C4: deleting an id that exists marks the row
deleted; the companion counterexample covers the unknown-id case. -/
theorem claim_c4_witness :
    ∃ s1, applyServerChange noNet 7 (mkStore [syncedDoc "d1"] [])
        (deleteChange "d1") = .ok s1 ∧
      (((∀ d ∈ (mkStore [syncedDoc "d1"] []).documents, d.id ≠ "d1") →
        s1 = mkStore [syncedDoc "d1"] []) ∧
       (∀ d ∈ (mkStore [syncedDoc "d1"] []).documents, d.id = "d1" →
         { d with status := "deleted" } ∈ s1.documents) ∧
       s1.documents.length = (mkStore [syncedDoc "d1"] []).documents.length) := by
  obtain ⟨s1, h1, h2, h3, h4⟩ := claim_c4_amended noNet 7
    (mkStore [syncedDoc "d1"] []) (deleteChange "d1") "d1"
    (by decide) (by decide) rfl
  exact ⟨s1, h1, h2, h3, h4⟩

/-- Counterexample to claim C5: `status = deleted` is not terminal. On a
store whose only document is a tombstone, `update_document` with a new
filename succeeds and returns the row with `status = local` and
`needs_upload = true`: the tombstone was resurrected by an ordinary public
command. -/
theorem claim_c5_counterexample :
    ((mkStore [{ syncedDoc "d1" with status := "deleted" }] []).findDoc
        "d1").map (fun d => d.status) = some "deleted" ∧
    (update_document "d1" (some "b.txt") 5
        (mkStore [{ syncedDoc "d1" with status := "deleted" }] [])).toOption.map
      (fun p => (p.2.status, p.2.needs_upload)) = some ("local", true) := by
  exact ⟨rfl, by decide⟩

/-- Claim C5 as amended: a deleted document is not a terminal tombstone.
`update_document` with a filename matches the tombstone row without any
status guard and rewrites it to `status = local` with `needs_upload = true`,
and the pull-merge upsert rewrites it to `status = synced`; the deletion is
preserved only by operations that do not touch the row. -/
theorem claim_c5_amended :
    (∀ s id name now (d0 : Document), d0 ∈ s.documents → d0.id = id →
      d0.status = "deleted" →
      ∃ p, update_document id (some name) now s = .ok p ∧
        { d0 with filename := name, local_version := d0.local_version + 1,
                  needs_upload := true, is_synced := false,
                  status := "local", updated_at := now } ∈ p.1.documents) ∧
    (∀ env now s (data chg : Json) i (d0 : Document), d0 ∈ s.documents →
      d0.id = i → d0.status = "deleted" →
      ((data.get "id").asStr.getD "") = i → env.applyDbError chg = none →
      ∃ s1, applyUpsert env now s data chg = .ok s1 ∧
        syncedMerge data now i d0 ∈ s1.documents ∧
        (syncedMerge data now i d0).status = "synced") := by
  constructor
  · intro s id name now d0 hd0 hid _
    have hmem : ({ d0 with filename := name,
                           local_version := d0.local_version + 1,
                           needs_upload := true,
                           is_synced := false, status := "local",
                           updated_at := now } : Document) ∈
        (updateStep id name now s).documents :=
      List.mem_map.mpr ⟨d0, hd0, by rw [if_pos hid]⟩
    have hsome : ((updateStep id name now s).documents.find?
        (fun d => decide (d.id = id))).isSome :=
      List.find?_isSome.mpr ⟨_, hmem, decide_eq_true hid⟩
    obtain ⟨dres, hdres⟩ := Option.isSome_iff_exists.mp hsome
    refine ⟨(updateStep id name now s, dres), ?_, hmem⟩
    have hget : get_document id (updateStep id name now s) = .ok dres := by
      unfold get_document Store.findDoc
      rw [hdres]
    simp only [update_document, hget]
  · intro env now s data chg i d0 hd0 hdi _ hid hdb
    have hpres : (s.documents.any fun d => decide (d.id = i)) = true :=
      List.any_eq_true.mpr ⟨d0, hd0, decide_eq_true hdi⟩
    rw [applyUpsert_eq hdb hid, if_pos hpres]
    refine ⟨_, rfl, List.mem_map.mpr ⟨d0, hd0, rfl⟩, ?_⟩
    unfold syncedMerge
    rw [if_pos hdi]

/-- Witness for the amended C5 on a concrete tombstone: the update command
resurrects it to local, and the pull merge resurrects it to synced. -/
theorem claim_c5_witness :
    (∃ p, update_document "d1" (some "b.txt") 5
        (mkStore [{ syncedDoc "d1" with status := "deleted" }] []) = .ok p ∧
      { { syncedDoc "d1" with status := "deleted" } with
          filename := "b.txt", local_version := 2, needs_upload := true,
          is_synced := false, status := "local", updated_at := 5 } ∈
        p.1.documents) ∧
    (∃ s1, applyUpsert noNet 6
        (mkStore [{ syncedDoc "d1" with status := "deleted" }] [])
        ((createChange "d1" "k2").get "data") (createChange "d1" "k2") =
        .ok s1 ∧
      syncedMerge ((createChange "d1" "k2").get "data") 6 "d1"
        { syncedDoc "d1" with status := "deleted" } ∈ s1.documents ∧
      (syncedMerge ((createChange "d1" "k2").get "data") 6 "d1"
        { syncedDoc "d1" with status := "deleted" }).status = "synced") := by
  constructor
  · obtain ⟨p, h1, h2⟩ := claim_c5_amended.1
      (mkStore [{ syncedDoc "d1" with status := "deleted" }] []) "d1" "b.txt" 5
      { syncedDoc "d1" with status := "deleted" }
      (List.mem_singleton.mpr rfl) rfl rfl
    exact ⟨p, h1, h2⟩
  · exact claim_c5_amended.2 noNet 6
      (mkStore [{ syncedDoc "d1" with status := "deleted" }] [])
      ((createChange "d1" "k2").get "data") (createChange "d1" "k2") "d1"
      { syncedDoc "d1" with status := "deleted" }
      (List.mem_singleton.mpr rfl) rfl rfl (by decide) rfl

/-- Claim C6: one push-pipeline run selects exactly the operations with
`status = pending` and `retry_count < 5`, at most 20 of them, ordered by
`created_at` ascending, and processes that batch serially in order; an
operation outside the filter (failed, or out of retries) is excluded from
the selection but remains stored, still queryable with its failed status. -/
theorem claim_c6 (env : Env) (now : Nat) (s : Store) :
    (∀ o ∈ selectPendingOps s,
       o ∈ s.ops ∧ o.status = "pending" ∧ o.retry_count < 5) ∧
    (selectPendingOps s).length ≤ 20 ∧
    (selectPendingOps s).Pairwise opLe ∧
    ((s.ops.filter (fun o =>
        decide (o.status = "pending" ∧ o.retry_count < 5))).length ≤ 20 →
      ∀ o, o ∈ selectPendingOps s ↔
        o ∈ s.ops ∧ o.status = "pending" ∧ o.retry_count < 5) ∧
    processPendingOps env now s =
      (selectPendingOps s).foldl (processOne env now) s ∧
    (∀ o ∈ s.ops, o.status ≠ "pending" ∨ 5 ≤ o.retry_count →
      o ∉ selectPendingOps s) ∧
    (s.WF → ∀ o ∈ s.ops, o.status = "failed" →
      o ∈ (processPendingOps env now s).ops) := by
  refine ⟨fun o ho => mem_selectPendingOps ho, selectPendingOps_length s,
    selectPendingOps_sorted s,
    fun hlen o => selectPendingOps_full hlen o, rfl, ?_, ?_⟩
  · intro o _ hbad hsel
    rcases hbad with hb | hb
    · exact hb (mem_selectPendingOps hsel).2.1
    · exact absurd (mem_selectPendingOps hsel).2.2 (Nat.not_lt.mpr hb)
  · intro hwf o ho hfail
    unfold processPendingOps
    apply foldl_processOne_untouched env now _ _ _ ho
    intro a ha hc
    have hao := mem_selectPendingOps ha
    have hne : a ≠ o := by
      intro he
      subst he
      rw [hfail] at hao
      exact absurd hao.2.1 (by decide)
    exact absurd hc (hwf.2.forall (fun _ _ h => h.symm) hao.1 ho hne)

/-- Witness for C6: on a queue with two pending operations enqueued out of
id order and one exhausted failed operation, the selection is sorted, holds
exactly the pending operations, excludes the failed one, and the failed row
survives the run still failed. -/
theorem claim_c6_witness :
    (selectPendingOps c6s).Pairwise opLe ∧
    pendingOp "b" "delete_document" "d" 1 ∈ selectPendingOps c6s ∧
    c6failed ∉ selectPendingOps c6s ∧
    c6failed ∈ (processPendingOps noNet 7 c6s).ops := by
  refine ⟨(claim_c6 noNet 7 c6s).2.2.1, ?_, ?_, ?_⟩
  · exact ((claim_c6 noNet 7 c6s).2.2.2.1 (by decide) _).mpr
      ⟨List.mem_cons_of_mem _ (List.mem_cons_self _ _), rfl, by decide⟩
  · exact (claim_c6 noNet 7 c6s).2.2.2.2.2.1 c6failed
      (List.mem_cons_of_mem _ (List.mem_cons_of_mem _
        (List.mem_cons_self _ _)))
      (Or.inl (by decide))
  · exact (claim_c6 noNet 7 c6s).2.2.2.2.2.2 (by decide) c6failed
      (List.mem_cons_of_mem _ (List.mem_cons_of_mem _
        (List.mem_cons_self _ _))) rfl

/-- Claim C7: when executing one batch operation fails, the batch-loop step
equals the failure UPDATE: the documents table is untouched, the failing
row gets `retry_count` incremented by exactly one, `status = failed` and the
error text recorded, every other row is untouched, and the fold continues
with the remaining operations instead of aborting; moreover a missing
`doc_id`, an unknown document, an absent `local_path`, and a failed
upload-target request each produce such an error. -/
theorem claim_c7 (env : Env) (now : Nat) (s : Store) (op : OfflineOp)
    (e : String) (h : execOp env now s op.op_type op.payload = .error e) :
    processOne env now s op = markOpFailed s op.id e now ∧
    (processOne env now s op).documents = s.documents ∧
    (∀ o ∈ s.ops, o.id = op.id →
      { o with retry_count := o.retry_count + 1, status := "failed",
               error_msg := some e, updated_at := now } ∈
        (processOne env now s op).ops) ∧
    (∀ o ∈ s.ops, o.id ≠ op.id → o ∈ (processOne env now s op).ops) ∧
    (∀ rest : List OfflineOp, (op :: rest).foldl (processOne env now) s =
      rest.foldl (processOne env now) (processOne env now s op)) ∧
    (∀ p : Json, (p.get "doc_id").asStr = none →
      execOp env now s "upload_document" p = .error "Missing doc_id") ∧
    (∀ (p : Json) (docId : String), (p.get "doc_id").asStr = some docId →
      s.findDoc docId = none →
      execOp env now s "upload_document" p =
        .error ("Document " ++ docId ++ " not found in local DB")) ∧
    (∀ (p : Json) (docId : String) (doc : Document),
      (p.get "doc_id").asStr = some docId → s.findDoc docId = some doc →
      doc.local_path = none →
      execOp env now s "upload_document" p =
        .error "Document has no local_path") ∧
    (∀ (p : Json) (docId : String) (doc : Document) (lp e2 : String),
      (p.get "doc_id").asStr = some docId → s.findDoc docId = some doc →
      doc.local_path = some lp →
      env.uploadUrlResp docId doc.filename = .error e2 →
      execOp env now s "upload_document" p = .error e2) := by
  have h1 : processOne env now s op = markOpFailed s op.id e now := by
    unfold processOne
    rw [h]
  refine ⟨h1, by rw [h1]; rfl, ?_, ?_, fun rest => rfl, ?_, ?_, ?_, ?_⟩
  · intro o ho hid
    rw [h1]
    exact List.mem_map.mpr ⟨o, ho, by rw [if_pos hid]⟩
  · intro o ho hid
    rw [h1]
    exact List.mem_map.mpr ⟨o, ho, by rw [if_neg hid]⟩
  · intro p hp
    show uploadDocument env now s p = _
    unfold uploadDocument
    rw [hp]
  · intro p docId hp hfind
    show uploadDocument env now s p = _
    unfold uploadDocument
    rw [hp]
    simp only [hfind]
  · intro p docId doc hp hfind hlp
    show uploadDocument env now s p = _
    unfold uploadDocument
    rw [hp]
    simp only [hfind, hlp]
  · intro p docId doc lp e2 hp hfind hlp hurl
    show uploadDocument env now s p = _
    unfold uploadDocument
    rw [hp]
    simp only [hfind, hlp, hurl]

/-- Witness for C7 at a concrete batch: an `upload_document` operation whose
target document does not exist fails; its row is marked failed with one
retry, the (empty) documents table is unchanged, and the fold continues. -/
theorem claim_c7_witness :
    processOne noNet 7 (mkStore [] [pendingOp "op1" "upload_document" "dX" 2])
        (pendingOp "op1" "upload_document" "dX" 2) =
      markOpFailed (mkStore [] [pendingOp "op1" "upload_document" "dX" 2])
        "op1" "Document dX not found in local DB" 7 ∧
    { pendingOp "op1" "upload_document" "dX" 2 with
        retry_count := 1, status := "failed",
        error_msg := some "Document dX not found in local DB",
        updated_at := 7 } ∈
      (processOne noNet 7
        (mkStore [] [pendingOp "op1" "upload_document" "dX" 2])
        (pendingOp "op1" "upload_document" "dX" 2)).ops := by
  have hmain := claim_c7 noNet 7
    (mkStore [] [pendingOp "op1" "upload_document" "dX" 2])
    (pendingOp "op1" "upload_document" "dX" 2)
    "Document dX not found in local DB" rfl
  exact ⟨hmain.1, hmain.2.2.1 (pendingOp "op1" "upload_document" "dX" 2)
    (List.mem_singleton.mpr rfl) rfl⟩

/-- Claim C8: a successful three-step upload marks the document synced with
the object key returned by the remote service and `last_synced_at` stamped,
and the batch-loop step marks the operation done. -/
theorem claim_c8 (env : Env) (now : Nat) (s : Store) (op : OfflineOp)
    (docId : String) (doc : Document) (lp : String) (resp : Json)
    (upload_url object_key : String) (bytes : List Nat)
    (hty : op.op_type = "upload_document")
    (hp : (op.payload.get "doc_id").asStr = some docId)
    (hfind : s.findDoc docId = some doc)
    (hlp : doc.local_path = some lp)
    (hurl : env.uploadUrlResp docId doc.filename = .ok resp)
    (hu : (resp.get "upload_url").asStr = some upload_url)
    (hk : (resp.get "object_key").asStr = some object_key)
    (hread : env.readFile lp = .ok bytes)
    (hput : env.putResp upload_url bytes = .ok ())
    (happly : env.applyResp (uploadEnvelope docId doc.filename
      (doc.content_type.getD "application/octet-stream") object_key
      doc.metadata) = .ok ()) :
    uploadDocument env now s op.payload = .ok
      { s with documents :=
          s.documents.map (uploadedMerge object_key now docId) } ∧
    (∀ d ∈ s.documents, d.id = docId →
      { d with status := "synced", object_key := some object_key,
               is_synced := true, needs_upload := false,
               last_synced_at := some now, updated_at := now } ∈
        (processOne env now s op).documents) ∧
    (∀ o ∈ s.ops, o.id = op.id →
      { o with status := "done", updated_at := now } ∈
        (processOne env now s op).ops) := by
  have hup : uploadDocument env now s op.payload = .ok
      { s with documents :=
          s.documents.map (uploadedMerge object_key now docId) } := by
    unfold uploadDocument
    rw [hp]
    simp only [hfind, hlp, hurl, hu, hk, hread, hput, happly, requireStr]
  have hex : execOp env now s op.op_type op.payload = .ok
      { s with documents :=
          s.documents.map (uploadedMerge object_key now docId) } := by
    unfold execOp
    rw [hty]
    exact hup
  have hproc : processOne env now s op = markOpDone
      { s with documents :=
          s.documents.map (uploadedMerge object_key now docId) } op.id now := by
    unfold processOne
    rw [hex]
  refine ⟨hup, ?_, ?_⟩
  · intro d hd hdi
    rw [hproc]
    show _ ∈ s.documents.map (uploadedMerge object_key now docId)
    exact List.mem_map.mpr ⟨d, hd, by unfold uploadedMerge; rw [if_pos hdi]⟩
  · intro o ho hid
    rw [hproc]
    exact markOpDone_mem ho hid

/-- Witness for C8: the document "D" with filename notes.txt and its queued
upload, run against a remote that accepts the three-step protocol; the row
ends synced with the returned object key and the operation ends done. -/
theorem claim_c8_witness :
    { localDoc "D" "notes.txt" with
        status := "synced", object_key := some "objkey-1",
        is_synced := true, needs_upload := false,
        last_synced_at := some 7, updated_at := 7 } ∈
      (processOne okUploadEnv 7 c8s
        (pendingOp "op1" "upload_document" "D" 1)).documents ∧
    { pendingOp "op1" "upload_document" "D" 1 with
        status := "done", updated_at := 7 } ∈
      (processOne okUploadEnv 7 c8s
        (pendingOp "op1" "upload_document" "D" 1)).ops := by
  have hmain := claim_c8 okUploadEnv 7 c8s
    (pendingOp "op1" "upload_document" "D" 1) "D" (localDoc "D" "notes.txt")
    "/tmp/notes"
    (Json.obj [("upload_url", Json.str "https://bucket/put"),
               ("object_key", Json.str "objkey-1")])
    "https://bucket/put" "objkey-1" [104, 105]
    rfl rfl rfl rfl rfl rfl rfl rfl rfl rfl
  exact ⟨hmain.2.1 (localDoc "D" "notes.txt") (List.mem_singleton.mpr rfl) rfl,
    hmain.2.2 (pendingOp "op1" "upload_document" "D" 1)
      (List.mem_singleton.mpr rfl) rfl⟩

/-- Claim C3: checkpoint advancement is all-or-nothing per pull cycle. If any
change application in the pulled batch reports an error, `pull_server_changes`
leaves the checkpoint field `last_sync_at` unchanged, so the next pull uses
the same since value; the checkpoint moves only when every change applied
without error. -/
theorem claim_c3 (env : Env) (now : Nat) (s : Store) (e : String)
    (h : (pullServerChanges env now s).2 = some e) :
    (pullServerChanges env now s).1.last_sync_at = s.last_sync_at ∧
    sinceOf (pullServerChanges env now s).1 = sinceOf s := by
  have hmain : (pullServerChanges env now s).1.last_sync_at = s.last_sync_at := by
    unfold pullServerChanges at h ⊢
    cases hr : env.changesResp (sinceOf s) with
    | error e2 => simp only [hr]
    | ok resp =>
      simp only [hr] at h ⊢
      cases hA : applyAll env now s (((resp.get "changes").asArr).getD []) with
      | mk s1 err =>
        cases err with
        | some e2 =>
          simp only [hA]
          have h3 := applyAll_fst_last_sync env now
            (((resp.get "changes").asArr).getD []) s
          rw [hA] at h3
          exact h3
        | none =>
          rw [hA] at h
          simp at h
  refine ⟨hmain, ?_⟩
  unfold sinceOf
  rw [hmain]

/-- Witness for C3 at a concrete three-change batch whose second change fails
to apply: the pull reports the error and the checkpoint is unchanged. -/
theorem claim_c3_witness :
    (pullServerChanges (pullEnv [deleteChange "x1", deleteChange "x2",
        deleteChange "x3"] "x2") 9
      (mkStore [syncedDoc "x1", syncedDoc "x2"] [])).2 = some "disk error" ∧
    (pullServerChanges (pullEnv [deleteChange "x1", deleteChange "x2",
        deleteChange "x3"] "x2") 9
      (mkStore [syncedDoc "x1", syncedDoc "x2"] [])).1.last_sync_at =
      (mkStore [syncedDoc "x1", syncedDoc "x2"] []).last_sync_at ∧
    sinceOf (pullServerChanges (pullEnv [deleteChange "x1", deleteChange "x2",
        deleteChange "x3"] "x2") 9
      (mkStore [syncedDoc "x1", syncedDoc "x2"] [])).1 =
      sinceOf (mkStore [syncedDoc "x1", syncedDoc "x2"] []) :=
  ⟨by decide,
   (claim_c3 (pullEnv [deleteChange "x1", deleteChange "x2", deleteChange "x3"]
      "x2") 9 (mkStore [syncedDoc "x1", syncedDoc "x2"] []) "disk error"
      (by decide)).1,
   (claim_c3 (pullEnv [deleteChange "x1", deleteChange "x2", deleteChange "x3"]
      "x2") 9 (mkStore [syncedDoc "x1", syncedDoc "x2"] []) "disk error"
      (by decide)).2⟩

/-- Claim C9: applying the same `document_created` or `document_updated` pull
change twice is idempotent. The first error-free application leaves exactly
one row for the id when none existed (otherwise keeps the count); the second
application never errors, never changes the number of rows for that id, and
does not insert (the row count of the whole table is unchanged). -/
theorem claim_c9 (env env2 : Env) (now now2 : Nat) (s : Store) (chg : Json)
    (ty i : String) (hty : ((chg.get "type").asStr.getD "") = ty)
    (hty2 : ty = "document_created" ∨ ty = "document_updated")
    (hid : (((chg.get "data").get "id").asStr.getD "") = i)
    (hdb1 : env.applyDbError chg = none)
    (hdb2 : env2.applyDbError chg = none) :
    ∃ s1 s2, applyServerChange env now s chg = .ok s1 ∧
      applyServerChange env2 now2 s1 chg = .ok s2 ∧
      countById s1.documents i =
        (if countById s.documents i = 0 then 1 else countById s.documents i) ∧
      countById s2.documents i = countById s1.documents i ∧
      s2.documents.length = s1.documents.length := by
  obtain ⟨s1, h1, hc1, _⟩ :=
    @applyUpsert_count env now s (chg.get "data") chg i hdb1 hid
  obtain ⟨s2, h2, hc2, hl2⟩ :=
    @applyUpsert_count env2 now2 s1 (chg.get "data") chg i hdb2 hid
  have hnz : countById s1.documents i ≠ 0 := by
    rw [hc1]
    by_cases hz : countById s.documents i = 0
    · rw [if_pos hz]; exact Nat.one_ne_zero
    · rw [if_neg hz]; exact hz
  refine ⟨s1, s2, ?_, ?_, hc1, ?_, hl2 hnz⟩
  · rw [applyServerChange_upsert hty hty2]; exact h1
  · rw [applyServerChange_upsert hty hty2]; exact h2
  · rw [hc2, if_neg hnz]

/-- Witness for C9: a `document_created` change for an id unknown to an empty
store, applied twice; one row exists after the first application and the
second changes nothing it counts. -/
theorem claim_c9_witness :
    ∃ s1 s2, applyServerChange noNet 4 (mkStore [] []) (createChange "n1" "k9")
        = .ok s1 ∧
      applyServerChange noNet 5 s1 (createChange "n1" "k9") = .ok s2 ∧
      countById s1.documents "n1" =
        (if countById (mkStore [] []).documents "n1" = 0 then 1
         else countById (mkStore [] []).documents "n1") ∧
      countById s2.documents "n1" = countById s1.documents "n1" ∧
      s2.documents.length = s1.documents.length :=
  claim_c9 noNet noNet 4 5 (mkStore [] []) (createChange "n1" "k9")
    "document_created" "n1" (by decide) (Or.inl rfl) (by decide) rfl rfl

/-- Claim C10: whenever `pull_server_changes` completes without error it sets
the checkpoint to the local clock value `now` (the local database time),
never to a timestamp from the server response, and it does so even when zero
changes were returned: every error-free pull advances the checkpoint. -/
theorem claim_c10 (env : Env) (now : Nat) (s : Store)
    (h : (pullServerChanges env now s).2 = none) :
    (pullServerChanges env now s).1.last_sync_at = some now := by
  unfold pullServerChanges at h ⊢
  cases hr : env.changesResp (sinceOf s) with
  | error e =>
    rw [hr] at h
    simp at h
  | ok resp =>
    simp only [hr] at h ⊢
    cases hA : applyAll env now s (((resp.get "changes").asArr).getD []) with
    | mk s1 err =>
      cases err with
      | some e =>
        rw [hA] at h
        simp at h
      | none =>
        simp only [hA]

/-- Witness for C10 at a pull that returns zero changes: the checkpoint still
advances, to the local clock value passed in. -/
theorem claim_c10_witness :
    (pullServerChanges (pullEnv [] "none") 11 (mkStore [] [])).2 = none ∧
    (pullServerChanges (pullEnv [] "none") 11
      (mkStore [] [])).1.last_sync_at = some 11 :=
  ⟨by decide, claim_c10 (pullEnv [] "none") 11 (mkStore [] []) (by decide)⟩

end Did
